import Mathlib

/-
Shallow embedding of the finwrap repository (src/finwrap/currency.py,
src/finwrap/models.py, src/finwrap/export/bagels.py) and proofs about the
claims of its specification.

Conventions of the embedding:
* Python floats are modelled as rationals (ℚ); the numeric values exercised
  here are exact in binary64, and no claim depends on rounding.
* Nullable columns are modelled as Option values; polars null propagation in
  arithmetic is Kleene-style (any null operand gives null).
* Fallible Python code (raise) is modelled with Except String.
* Network access is modelled by a RateService value; every call of the
  memoized resolver threads an explicit cache and reports how many HTTP
  requests it issued.
-/

namespace Finwrap

/-! ## Dates and timestamps

Timestamps are microseconds since the Unix epoch, matching pl.Datetime("us").
Calendar conversion uses the standard civil-from-days / days-from-civil
algorithms, with Int division truncating toward zero as in C and Lean.
-/

/-- Days since 1970-01-01 of the civil date y-m-d (proleptic Gregorian). -/
def daysFromCivil (y0 m d : Int) : Int :=
  let y := if m ≤ 2 then y0 - 1 else y0
  let era := (if 0 ≤ y then y else y - 399) / 400
  let yoe := y - era * 400
  let mp := (m + 9) % 12
  let doy := (153 * mp + 2) / 5 + d - 1
  let doe := yoe * 365 + yoe / 4 - yoe / 100 + doy
  era * 146097 + doe - 719468

/-- Inverse of daysFromCivil: the civil date (y, m, d) of a day number. -/
def civilFromDays (z0 : Int) : Int × Int × Int :=
  let z := z0 + 719468
  let era := (if 0 ≤ z then z else z - 146096) / 146097
  let doe := z - era * 146097
  let yoe := (doe - doe / 1460 + doe / 36524 - doe / 146096) / 365
  let y := yoe + era * 400
  let doy := doe - (365 * yoe + yoe / 4 - yoe / 100)
  let mp := (5 * doy + 2) / 153
  let d := doy - (153 * mp + 2) / 5 + 1
  let m := mp + (if mp < 10 then 3 else -9)
  (if m ≤ 2 then y + 1 else y, m, d)

/-- Microseconds in one day. -/
def usPerDay : Int := 86400000000

/-- Microsecond timestamp of midnight on the civil date y-m-d. -/
def tsMicro (y m d : Int) : Int := daysFromCivil y m d * usPerDay

/-- Left-pad the decimal form of a natural number with zeros to width w. -/
def padNat (w : Nat) (n : Nat) : String :=
  let s := toString n
  if s.length < w then String.mk (List.replicate (w - s.length) '0') ++ s else s

/-- Format a microsecond timestamp as YYYY-MM-DD, as strftime with %F does. -/
def formatDateYMD (t : Int) : String :=
  let (y, m, d) := civilFromDays (Int.ediv t usPerDay)
  padNat 4 y.toNat ++ "-" ++ padNat 2 m.toNat ++ "-" ++ padNat 2 d.toNat

/-- Digit characters of a string read as a natural number; none when the
string is empty or holds a non-digit. -/
def digitsValGo : List Char → Nat → Option Nat
  | [], acc => some acc
  | c :: rest, acc =>
    if c.isDigit then digitsValGo rest (acc * 10 + (c.toNat - 48)) else none

/-- Parse a nonempty all-digit string as a Nat. -/
def digitsVal (cs : List Char) : Option Nat :=
  match cs with
  | [] => none
  | _ => digitsValGo cs 0

/-- Split a character list on a separator character (groups between the
separators, in order). -/
def splitOnChar (sep : Char) : List Char → List (List Char)
  | [] => [[]]
  | c :: cs =>
    if c = sep then [] :: splitOnChar sep cs
    else
      match splitOnChar sep cs with
      | [] => [[c]]
      | g :: gs => (c :: g) :: gs

/-- Parse a YYYY-MM-DD date string into a microsecond timestamp. -/
def parseDateYMD (s : String) : Option Int :=
  match splitOnChar '-' s.data with
  | [ys, ms, ds] =>
    match digitsVal ys, digitsVal ms, digitsVal ds with
    | some y, some m, some d => some (tsMicro y m d)
    | _, _, _ => none
  | _ => none

/-- Parse an HH:MM:SS or HH:MM:SS.ffffff time-of-day string into
microseconds. -/
def parseTimeHMS (s : String) : Option Int :=
  match splitOnChar ':' s.data with
  | [hs, ms, rest] =>
    let (ss, us) :=
      match splitOnChar '.' rest with
      | [a, b] => (a, digitsVal b)
      | _ => (rest, some 0)
    match digitsVal hs, digitsVal ms, digitsVal ss, us with
    | some h, some m, some sec, some micro =>
      some (((h * 3600 + m * 60 + sec : Int) * 1000000) + micro)
    | _, _, _, _ => none
  | _ => none

/-- Parse an ISO-style date or datetime string (the forms this repository
reads back from the store and from its sources) into a microsecond
timestamp. Models str.to_datetime for the formats the repository uses. -/
def parseDatetimeStr (s : String) : Option Int :=
  match splitOnChar ' ' s.data with
  | [d] => parseDateYMD (String.mk d)
  | [d, t] =>
    match parseDateYMD (String.mk d), parseTimeHMS (String.mk t) with
    | some td, some tt => some (td + tt)
    | _, _ => none
  | _ => none

/-! ## Currency rate resolver (src/finwrap/currency.py) -/

/-- The date argument of the resolver: a date/datetime value (microsecond
timestamp) or the sentinel "latest". -/
inductive DateInput
  | ts (t : Int)
  | latest
deriving DecidableEq, Repr

/-- The date_str the resolver builds: strftime("%F") on a date value, the
sentinel itself otherwise. -/
def DateInput.toDateStr : DateInput → String
  | .ts t => formatDateYMD t
  | .latest => "latest"

/-- An HTTP response of the rate service: a status code and the payload,
read as payload.get(from_currency).get(to_currency). -/
structure HttpResponse where
  status : Nat
  body : String → String → Option ℚ

/-- The rate service: requests.get on the URL templated by (lower-cased
source currency, date string). -/
structure RateService where
  get : String → String → HttpResponse

/-- Lower-case a string (Python str.lower on the ASCII currency codes). -/
def asciiLower (s : String) : String := ⟨s.data.map Char.toLower⟩

/-- Upper-case a string (Python str.upper on the ASCII currency codes). -/
def asciiUpper (s : String) : String := ⟨s.data.map Char.toUpper⟩

/-- Error message of the resolver when no rate and no default is available
(source: the ValueError in get_currency_rate). -/
def unableMsg (fc tc : String) : String :=
  "Unable to fetch exchange rate for " ++ asciiUpper fc ++ "/" ++ asciiUpper tc ++
    " and no default_rate was specified."

/-- One un-memoized evaluation of get_currency_rate: lower-case the codes,
format the date, issue the request, and branch exactly as the source does.
Note the source tests response.status_code % 200 == 0, and that the
non-rate-bearing paths return default_rate, which may itself be None. -/
def get_currency_rate_core (svc : RateService) (from_currency to_currency : String)
    (date_input : DateInput) (default_rate : Option ℚ) : Except String (Option ℚ) :=
  let fc := asciiLower from_currency
  let tc := asciiLower to_currency
  let date_str := date_input.toDateStr
  let response := svc.get fc date_str
  if response.status % 200 == 0 then
    match response.body fc tc with
    | some rate => .ok (some rate)
    | none =>
      match default_rate with
      | none => .error (unableMsg fc tc)
      | some _ => .ok default_rate
  else
    .ok default_rate

/-- Cache key of the functools.cache memoization: the exact argument tuple. -/
structure CacheKey where
  from_currency : String
  to_currency : String
  date_input : DateInput
  default_rate : Option ℚ
deriving DecidableEq, Repr

/-- The process-wide memo cache of get_currency_rate. -/
def RateCache : Type := List (CacheKey × Option ℚ)

/-- Lookup of a key in the memo cache. -/
def lookupCache : List (CacheKey × Option ℚ) → CacheKey → Option (Option ℚ)
  | [], _ => none
  | (k, v) :: rest, key => if k = key then some v else lookupCache rest key

/-- Result of one call of the memoized resolver: the returned value (or the
raised error), the cache afterwards, and how many HTTP requests the call
issued. -/
structure FetchResult where
  result : Except String (Option ℚ)
  cache : List (CacheKey × Option ℚ)
  fetches : Nat
deriving Repr

/-- get_currency_rate with its functools.cache: a hit returns the stored
value with no request; a miss evaluates the body (one request) and stores
the value only when the body returns rather than raises, exactly as
functools.cache does not memoize exceptions. -/
def get_currency_rate (svc : RateService) (cache : List (CacheKey × Option ℚ))
    (from_currency to_currency : String) (date_input : DateInput)
    (default_rate : Option ℚ) : FetchResult :=
  match lookupCache cache ⟨from_currency, to_currency, date_input, default_rate⟩ with
  | some v => ⟨.ok v, cache, 0⟩
  | none =>
    match get_currency_rate_core svc from_currency to_currency date_input default_rate with
    | .ok v =>
      ⟨.ok v, (⟨from_currency, to_currency, date_input, default_rate⟩, v) :: cache, 1⟩
    | .error e => ⟨.error e, cache, 1⟩

/-- Loop of get_currency_rate_batches over the zipped (currency, date)
pairs. Each element is resolved by the memoized resolver with default rate
None: the source builds the generator as get_currency_rate(c, to_currency, d),
never forwarding its own default_rate parameter. -/
def batchesGo (svc : RateService) (to_currency : String) :
    List (String × DateInput) → List (CacheKey × Option ℚ) →
      Except String (List (Option ℚ)) × List (CacheKey × Option ℚ) × Nat
  | [], cache => (.ok [], cache, 0)
  | (c, d) :: rest, cache =>
    let r := get_currency_rate svc cache c to_currency d none
    match r.result with
    | .error e => (.error e, r.cache, r.fetches)
    | .ok v =>
      match batchesGo svc to_currency rest r.cache with
      | (.error e, cache2, n) => (.error e, cache2, r.fetches + n)
      | (.ok vs, cache2, n) => (.ok (v :: vs), cache2, r.fetches + n)

/-- get_currency_rate_batches: the vectorized pass of the dynamic strategy.
Its default_rate parameter is accepted but, as in the source, not passed on
to the per-element resolver calls. -/
def get_currency_rate_batches (svc : RateService) (cache : List (CacheKey × Option ℚ))
    (from_currency : List String) (to_currency : String)
    (date_input : List DateInput) (default_rate : Option ℚ) :
    Except String (List (Option ℚ)) × List (CacheKey × Option ℚ) × Nat :=
  batchesGo svc to_currency (from_currency.zip date_input) cache

/-- The two rate-evaluation strategies of a Currency spec. -/
inductive Strategy
  | dynamic
  | latest
deriving DecidableEq, Repr

/-- Currency: the conversion policy attached to an Account
(class Currency in src/finwrap/currency.py). -/
structure Currency where
  currency_col : String
  convert_to : String
  default_rate : Option ℚ := none
  strategy : Strategy := .latest

/-- Per-row evaluation of the expression built by Currency.rate. The
expression is when(currency_col != convert_to).then(resolver call)
.otherwise(lit(1.0)); polars evaluates BOTH branch expressions over the
whole column and only then selects by the mask, so the then-branch
resolver call is made with every non-null row's currency value, including
rows whose currency already equals the target — for those rows the mask
then selects 1.0 regardless of what the resolver returned, while a raised
resolver error aborts the whole materialization. For the latest strategy
the resolver is the memoized get_currency_rate with the sentinel "latest"
and the configured default rate (map_elements); for the dynamic strategy
the batched pass calls it with the row's date and with default rate None
(get_currency_rate_batches drops its default_rate). The result reports the
cache afterwards and the fetches issued for the row. -/
def Currency.rateRow (c : Currency) (svc : RateService)
    (cache : List (CacheKey × Option ℚ)) (currencyVal : String)
    (dateVal : DateInput) : FetchResult :=
  match c.strategy with
  | .dynamic =>
    match get_currency_rate svc cache currencyVal c.convert_to dateVal none with
    | ⟨.error e, cache2, n⟩ => ⟨.error e, cache2, n⟩
    | ⟨.ok v, cache2, n⟩ =>
      ⟨.ok (if currencyVal ≠ c.convert_to then v else some 1), cache2, n⟩
  | .latest =>
    match get_currency_rate svc cache currencyVal c.convert_to .latest c.default_rate with
    | ⟨.error e, cache2, n⟩ => ⟨.error e, cache2, n⟩
    | ⟨.ok v, cache2, n⟩ =>
      ⟨.ok (if currencyVal ≠ c.convert_to then v else some 1), cache2, n⟩

/-! ## Tabular values and schemas (the polars fragment the models use) -/

/-- The polars dtypes the repository distinguishes. -/
inductive PolarsType
  | string
  | float64
  | int64
  | datetime_us
  | boolean
deriving DecidableEq, Repr

/-- A cell value; null models a polars null. -/
inductive Value
  | str (s : String)
  | num (q : ℚ)
  | dt (t : Int)
  | null
deriving DecidableEq, Repr

/-- A source row: column name to value. -/
def SrcRow : Type := List (String × Value)

/-- A schema: column name to dtype, as collect_schema returns it. -/
def Schema : Type := List (String × PolarsType)

/-- Column names of a schema (data_schema.names() / data.columns). -/
def schemaNames (s : List (String × PolarsType)) : List String := s.map Prod.fst

/-- Message of a missing-key lookup in the schema mapping
(data_schema[col] on an absent column): it names only the key. -/
def schemaMissingMsg (col : String) : String := "not found: " ++ col

/-- Lookup of a column dtype, raising the bare missing-key error on an
absent column. -/
def schemaGet : List (String × PolarsType) → String → Except String PolarsType
  | [], col => .error (schemaMissingMsg col)
  | (c, t) :: rest, col => if c = col then .ok t else schemaGet rest col

/-- Value of a column in a row; an absent column reads as null. -/
def getCol : List (String × Value) → String → Value
  | [], _ => .null
  | (c, v) :: rest, col => if c = col then v else getCol rest col

/-- Read a cell as a nullable string. -/
def getStrCell (row : List (String × Value)) (col : String) : Except String (Option String) :=
  match getCol row col with
  | .str s => .ok (some s)
  | .null => .ok none
  | _ => .error ("expected a string value in column " ++ col)

/-- Read a cell as a nullable number. -/
def getNumCell (row : List (String × Value)) (col : String) : Except String (Option ℚ) :=
  match getCol row col with
  | .num q => .ok (some q)
  | .null => .ok none
  | _ => .error ("expected a numeric value in column " ++ col)

/-- Read a cell as a nullable microsecond timestamp. -/
def getDtCell (row : List (String × Value)) (col : String) : Except String (Option Int) :=
  match getCol row col with
  | .dt t => .ok (some t)
  | .null => .ok none
  | _ => .error ("expected a datetime value in column " ++ col)

/-- Null-propagating subtraction (polars semantics). -/
def osub : Option ℚ → Option ℚ → Option ℚ
  | some a, some b => some (a - b)
  | _, _ => none

/-- Null-propagating multiplication (polars semantics). -/
def omul : Option ℚ → Option ℚ → Option ℚ
  | some a, some b => some (a * b)
  | _, _ => none

/-! ## String cleaning helpers -/

/-- Remove the first occurrence of a character from a character list.
polars Expr.str.replace replaces only the first match (its n parameter
defaults to 1), unlike Python str.replace which replaces all. -/
def replaceFirstChar (p : Char) : List Char → List Char
  | [] => []
  | c :: cs => if c = p then cs else c :: replaceFirstChar p cs

/-- The source's str.replace(",", "") on the textual amount: removes only
the first comma. -/
def strReplaceFirstComma (s : String) : String := ⟨replaceFirstChar ',' s.data⟩

/-- Parse a decimal literal (optional sign, digits, optional fraction) as a
rational; none when the string is not a valid float literal. Models the
strict cast of a string column to Float64, which fails on any remaining
non-numeric character. -/
def parseFloat64 (s : String) : Option ℚ :=
  let (sgn, body) :=
    match s.data with
    | '-' :: rest => ((-1 : ℚ), rest)
    | cs => ((1 : ℚ), cs)
  match splitOnChar '.' body with
  | [ipart] => (digitsVal ipart).map fun n => sgn * n
  | [ipart, fpart] =>
    match digitsVal ipart, digitsVal fpart with
    | some ni, some nf =>
      some (sgn * ((ni : ℚ) + (nf : ℚ) / ((10 : ℚ) ^ fpart.length)))
    | _, _ => none
  | _ => none

/-- The textual-amount coercion of Account.amount: remove the first comma
with str.replace, then cast to Float64. -/
def cleanAmountStr (s : String) : Option ℚ := parseFloat64 (strReplaceFirstComma s)

/-- Strip outer whitespace (str.strip_chars with no argument). -/
def strTrim (s : String) : String :=
  ⟨((s.data.dropWhile Char.isWhitespace).reverse.dropWhile Char.isWhitespace).reverse⟩

/-- Absolute value of a rational, as the .abs() expression computes it. -/
def ratAbs (q : ℚ) : ℚ := if q < 0 then -q else q

/-- Remove every occurrence of a literal pattern from a character list.
Models str.replace_all for the literal patterns the claims exercise. -/
def removeAllLiteral (p : List Char) : List Char → List Char
  | [] => []
  | c :: cs =>
    if h : p.isPrefixOf (c :: cs) ∧ p ≠ [] then
      removeAllLiteral p (List.drop p.length (c :: cs))
    else
      c :: removeAllLiteral p cs
termination_by l => l.length
decreasing_by
  · have hp : 0 < p.length := List.length_pos.mpr h.2
    simp only [List.length_drop, List.length_cons]
    omega
  · simp

/-! ## Account (src/finwrap/models.py) -/

/-- Account: one financial data source. The loaded LazyFrame and its
collected schema are fields of the Python object (data, data_schema);
file loading itself is I/O glue outside the claims, so the loaded rows
stand in for file_path here. -/
structure Account where
  name : String
  date_col : String
  transaction_col : String
  amount_col : String
  date_col_format : Option String := none
  currency : Option Currency := none
  fees_col : Option String := none
  transaction_col_cleaning_regex : Option String := none
  data : List (List (String × Value))
  data_schema : List (String × PolarsType)

/-- A canonical transaction record, the four columns Account.get_data
selects. -/
structure Row where
  account_name : String
  date : Option Int
  transaction : Option String
  amount : Option ℚ
deriving DecidableEq, Repr

/-- The assertion message of the required-column loop in get_data: it names
the missing column and the available columns. -/
def assertColMsg (col : String) (names : List String) : String :=
  col ++ " is not in data columns: " ++ toString names ++ ". col=" ++ col ++
    "; cols: " ++ toString names

/-- The list of columns the assert loop in get_data actually iterates over:
the source writes [self.date_col, self.transaction_col, self.transaction_col],
so the transaction column is checked twice and the amount column never. -/
def requiredColsChecked (a : Account) : List String :=
  [a.date_col, a.transaction_col, a.transaction_col]

/-- One pass of the assert loop over a list of column names. -/
def checkColsLoop (names : List String) : List String → Except String Unit
  | [] => .ok ()
  | c :: rest =>
    if c ∈ names then checkColsLoop names rest else .error (assertColMsg c names)

/-- The assert loop at the top of Account.get_data. -/
def Account.checkRequiredColumns (a : Account) : Except String Unit :=
  checkColsLoop (schemaNames a.data_schema) (requiredColsChecked a)

/-- Per-row value of the Account.date expression, given the dtype of the
date column: a textual column is parsed with str.to_datetime (strict: an
unparsable value raises), anything else is cast to Datetime("us"). -/
def dateRowVal (a : Account) (ty : PolarsType) (row : List (String × Value)) :
    Except String (Option Int) :=
  if ty = .string then do
    match ← getStrCell row a.date_col with
    | none => pure none
    | some s =>
      match parseDatetimeStr s with
      | some t => pure (some t)
      | none => .error ("conversion of string to datetime failed: " ++ s)
  else
    getDtCell row a.date_col

/-- Per-row value of the Account.transaction expression: the label column,
with every occurrence of the cleaning pattern removed when one is
configured (str.replace_all; modelled for literal patterns), then outer
whitespace stripped. -/
def transactionRowVal (a : Account) (row : List (String × Value)) :
    Except String (Option String) := do
  match ← getStrCell row a.transaction_col with
  | none => pure none
  | some s =>
    let cleaned :=
      match a.transaction_col_cleaning_regex with
      | none => s
      | some pat => String.mk (removeAllLiteral pat.data s.data)
    pure (some (strTrim cleaned))

/-- Per-row value of the base amount column, given its dtype: a textual
column goes through str.replace(",", "") and a strict Float64 cast, a
numeric column is read directly. -/
def baseAmountVal (a : Account) (ty : PolarsType) (row : List (String × Value)) :
    Except String (Option ℚ) :=
  if ty = .string then do
    match ← getStrCell row a.amount_col with
    | none => pure none
    | some s =>
      match cleanAmountStr s with
      | some q => pure (some q)
      | none => .error ("conversion of string to f64 failed: " ++ s)
  else
    getNumCell row a.amount_col

/-- Per-row value of the full Account.amount expression: base amount,
minus the fees column when configured, times the conversion-rate
expression when a Currency is configured (1.0 otherwise). -/
def amountRowVal (a : Account) (svc : RateService) (amtTy dateTy : PolarsType)
    (row : List (String × Value)) : Except String (Option ℚ) := do
  let base ← baseAmountVal a amtTy row
  let afterFees ←
    match a.fees_col with
    | none => pure base
    | some f => do
      let fee ← getNumCell row f
      pure (osub base fee)
  match a.currency with
  | none => pure afterFees
  | some c => do
    match ← getStrCell row c.currency_col with
    | none => pure none
    | some cv =>
      let d ← dateRowVal a dateTy row
      let dv : DateInput := match d with | some t => .ts t | none => .latest
      match (c.rateRow svc [] cv dv).result with
      | .error e => .error e
      | .ok r => pure (omul afterFees r)

/-- Build one canonical record from a source row, in the evaluation order
of the select call (account_name, date, transaction, amount). -/
def selectRow (a : Account) (svc : RateService) (amtTy dateTy : PolarsType)
    (row : List (String × Value)) : Except String Row := do
  let d ← dateRowVal a dateTy row
  let t ← transactionRowVal a row
  let amt ← amountRowVal a svc amtTy dateTy row
  pure ⟨a.name, d, t, amt⟩

/-- Ordering of raw cell values used by the sort on the date column; within
one dtype it is the natural order, nulls first. -/
def valueLe (a b : Value) : Bool :=
  match a, b with
  | .null, _ => true
  | _, .null => false
  | .str s, .str t => decide (s ≤ t)
  | .num p, .num q => decide (p ≤ q)
  | .dt p, .dt q => decide (p ≤ q)
  | _, _ => true

/-- Insert a row into a list sorted by the given column. -/
def insertRowBy (col : String) (r : List (String × Value)) :
    List (List (String × Value)) → List (List (String × Value))
  | [] => [r]
  | x :: xs =>
    if valueLe (getCol r col) (getCol x col) then r :: x :: xs
    else x :: insertRowBy col r xs

/-- Sort the source rows by the raw date column (the data.sort call). -/
def sortByCol (col : String) : List (List (String × Value)) → List (List (String × Value))
  | [] => []
  | r :: rest => insertRowBy col r (sortByCol col rest)

/-- Loop of dedupRows, carrying the rows already emitted. -/
def dedupRowsGo (seen : List Row) : List Row → List Row
  | [] => []
  | r :: rest =>
    if r ∈ seen then dedupRowsGo seen rest
    else r :: dedupRowsGo (r :: seen) rest

/-- Distinct rows, keeping the first occurrence (the .unique() call). -/
def dedupRows (l : List Row) : List Row := dedupRowsGo [] l

/-- Account.get_data: run the assert loop, resolve the dtypes the date and
amount expressions branch on (the schema lookups the property bodies
perform while the select is being built), sort by the raw date column,
build the four canonical columns per row, and drop duplicate rows. -/
def Account.get_data (a : Account) (svc : RateService) : Except String (List Row) := do
  a.checkRequiredColumns
  let dateTy ← schemaGet a.data_schema a.date_col
  let amtTy ← schemaGet a.data_schema a.amount_col
  let rows ← (sortByCol a.date_col a.data).mapM (selectRow a svc amtTy dateTy)
  pure (dedupRows rows)

/-- AccountCollection: an ordered list of Accounts. -/
structure AccountCollection where
  accounts : List Account

/-- Concatenation of the members' get_data outputs in list order; the
first raised error propagates, as evaluating the list comprehension in
pl.concat([d.get_data().lazy() for d in self.accounts]) would. -/
def collectData (svc : RateService) : List Account → Except String (List Row)
  | [] => .ok []
  | a :: rest =>
    match a.get_data svc with
    | .error e => .error e
    | .ok b =>
      match collectData svc rest with
      | .error e => .error e
      | .ok bs => .ok (b ++ bs)

/-- AccountCollection.get_data: pl.concat of the members' outputs,
vertically. -/
def AccountCollection.get_data (ac : AccountCollection) (svc : RateService) :
    Except String (List Row) :=
  collectData svc ac.accounts

/-- Row count an account contributes: the length of its get_data output
(zero when get_data raises, a case the concatenation claim never reaches). -/
def accountRowCount (a : Account) (svc : RateService) : Nat :=
  match a.get_data svc with
  | .ok rows => rows.length
  | .error _ => 0

/-! ## Export reconciler (src/finwrap/export/bagels.py)

The external sqlite store is modelled as a Store value; reading a table
returns its rows, and the final write_database call is recorded as the list
of rows handed to it (writing is external I/O). Identifier columns grow by
one from the next free id, as sqlite rowids do.
-/

/-- A row of the store's record table as the reconciler reads it back:
timestamps and the date are textual, the boolean flags are 0/1 integers. -/
structure RawRecord where
  createdAt : String
  updatedAt : String
  label : String
  amount : ℚ
  date : String
  accountId : Int
  categoryId : Int
  isIncome : Int
  isInProgress : Int
  isTransfer : Int
deriving DecidableEq, Repr

/-- A record row in the shape prepare_dataframe selects (the shape both
sides of the reconciling join are coerced to). -/
structure StoreRecord where
  createdAt : Int
  updatedAt : Int
  label : String
  amount : Option ℚ
  date : Option Int
  accountId : Int
  categoryId : Int
  isIncome : Option Bool
  isInProgress : Option Bool
  isTransfer : Option Bool
deriving DecidableEq, Repr

/-- The external store: account and category tables as (id, name) rows in
rowid order, the record table, and the next free ids. -/
structure Store where
  accounts : List (Int × String)
  categories : List (Int × String)
  records : List RawRecord
  nextAccountId : Int := 1
  nextCategoryId : Int := 1
deriving Repr

/-- create_accounts: read the existing account names once, then insert a
row for every incoming name not among them. -/
def create_accounts (account_names : List String) (store : Store) : Store :=
  let existing := store.accounts.map Prod.snd
  account_names.foldl
    (fun st n =>
      if existing.contains n then st
      else
        { st with
          accounts := st.accounts ++ [(st.nextAccountId, n)]
          nextAccountId := st.nextAccountId + 1 })
    store

/-- create_cateogry (the source's spelling): unconditionally insert a
category row with the given name, then return the first id among the rows
carrying that name (list(select ... where name == name)[0], in rowid
order). There is no existence check before the insert. -/
def create_cateogry (name : String) (store : Store) : Except String Int × Store :=
  let st :=
    { store with
      categories := store.categories ++ [(store.nextCategoryId, name)]
      nextCategoryId := store.nextCategoryId + 1 }
  let ids := (st.categories.filter fun c => c.2 == name).map Prod.fst
  (match ids.head? with
   | some i => .ok i
   | none => .error "list index out of range", st)

/-- Loop of dedupStrings, carrying the values already emitted. -/
def dedupStringsGo (seen : List String) : List String → List String
  | [] => []
  | s :: rest =>
    if s ∈ seen then dedupStringsGo seen rest
    else s :: dedupStringsGo (s :: seen) rest

/-- Distinct strings, keeping the first occurrence. -/
def dedupStrings (l : List String) : List String := dedupStringsGo [] l

/-- prepare_account_names: the distinct account_name values of the incoming
data. -/
def prepare_account_names (data : List Row) : List String :=
  dedupStrings (data.map Row.account_name)

/-- prepare_dataframe: inner-join the incoming canonical records to the
account table on name (rows with no matching account are dropped), then
select the store's record shape; the label picks up fill_null("N/A"), the
stored amount is the absolute value, and isIncome compares the original
signed amount with zero. -/
def prepare_dataframe (data : List Row) (account_table : List (Int × String))
    (category_id : Int) (now : Int) : List StoreRecord :=
  data.flatMap fun r =>
    (account_table.filter fun a => a.2 == r.account_name).map fun a =>
      { createdAt := now
        updatedAt := now
        label := r.transaction.getD "N/A"
        amount := r.amount.map ratAbs
        date := r.date
        accountId := a.1
        categoryId := category_id
        isIncome := r.amount.map fun q => decide (0 < q)
        isInProgress := some false
        isTransfer := some false }

/-- Strict str.to_datetime on a stored textual timestamp. -/
def expectTs (s : String) : Except String Int :=
  match parseDatetimeStr s with
  | some t => .ok t
  | none => .error ("conversion of string to datetime failed: " ++ s)

/-- process_record_table: coerce the store's existing record rows into the
shape of prepare_dataframe, parsing the textual timestamps and reading the
0/1 flags as booleans. -/
def process_record_table (records : List RawRecord) : Except String (List StoreRecord) :=
  records.mapM fun r => do
    let c ← expectTs r.createdAt
    let u ← expectTs r.updatedAt
    let d ← expectTs r.date
    pure
      { createdAt := c
        updatedAt := u
        label := r.label
        amount := some r.amount
        date := some d
        accountId := r.accountId
        categoryId := r.categoryId
        isIncome := some (r.isIncome == (1 : Int))
        isInProgress := some (r.isInProgress == (1 : Int))
        isTransfer := some (r.isTransfer == (1 : Int)) }

/-- Join-key equality on a nullable rational: null keys never match
(polars joins with join_nulls left at its default). -/
def joinKeyEqQ : Option ℚ → Option ℚ → Bool
  | some a, some b => a == b
  | _, _ => false

/-- Join-key equality on a nullable timestamp: null keys never match. -/
def joinKeyEqI : Option Int → Option Int → Bool
  | some a, some b => a == b
  | _, _ => false

/-- Whether an incoming row matches an existing row on the reconciling key
(label, amount, date). -/
def tripleMatches (d e : StoreRecord) : Bool :=
  d.label == e.label && joinKeyEqQ d.amount e.amount && joinKeyEqI d.date e.date

/-- The anti-join of the reconciliation step: keep the incoming rows whose
(label, amount, date) triple matches no existing row. -/
def antiJoinRecords (df existing : List StoreRecord) : List StoreRecord :=
  df.filter fun d => !(existing.any (tripleMatches d))

/-- Outcome of one save_to_bagel run: the store after the reference-entity
phase, the frame left after the reconciliation step, and the rows handed to
write_database (none when the write branch is not taken). -/
structure SaveResult where
  store : Store
  surviving : List StoreRecord
  written : Option (List StoreRecord)
deriving Repr

/-- save_to_bagel: collect the unified data, create missing accounts,
insert the "imported" category and resolve its id, read the account and
record tables, build the store-shaped frame, anti-join it against the
existing records when the record count is positive, and finally branch on
emptiness: the source writes when df.is_empty() and otherwise logs that
there is nothing to write, and that literal condition is preserved here. -/
def save_to_bagel (svc : RateService) (acct : AccountCollection) (store : Store)
    (now : Int) : Except String SaveResult := do
  let data ← acct.get_data svc
  let account_names := prepare_account_names data
  let store1 := create_accounts account_names store
  let (cid, store2) := create_cateogry "imported" store1
  let category_id ← cid
  let account_table := store2.accounts
  let record_table := store2.records
  let df0 := prepare_dataframe data account_table category_id now
  let df ←
    if record_table.length > 0 then do
      let existing ← process_record_table record_table
      pure (antiJoinRecords df0 existing)
    else
      pure df0
  if df.isEmpty then
    pure ⟨store2, df, some df⟩
  else
    pure ⟨store2, df, none⟩

/-! ## Concrete services and fixtures used by the claim theorems -/

/-- Decidable equality of Except values, used to evaluate closed claims. -/
instance exceptDecEq {ε α : Type} [DecidableEq ε] [DecidableEq α] :
    DecidableEq (Except ε α) := fun a b =>
  match a, b with
  | .error x, .error y =>
    if h : x = y then .isTrue (h ▸ rfl) else .isFalse fun hh => h (Except.error.inj hh)
  | .ok x, .ok y =>
    if h : x = y then .isTrue (h ▸ rfl) else .isFalse fun hh => h (Except.ok.inj hh)
  | .error _, .ok _ => .isFalse fun hh => Except.noConfusion hh
  | .ok _, .error _ => .isFalse fun hh => Except.noConfusion hh

/-- Equation lemma: a cache hit returns the stored value, leaves the cache
as it is, and issues no fetch. -/
theorem get_currency_rate_hit (svc : RateService) (cache : List (CacheKey × Option ℚ))
    (fc tc : String) (di : DateInput) (dr : Option ℚ) (v : Option ℚ)
    (h : lookupCache cache ⟨fc, tc, di, dr⟩ = some v) :
    get_currency_rate svc cache fc tc di dr = ⟨.ok v, cache, 0⟩ := by
  unfold get_currency_rate
  rw [h]

/-- Equation lemma: a cache miss whose body returns stores the value and
issues one fetch. -/
theorem get_currency_rate_miss_ok (svc : RateService) (cache : List (CacheKey × Option ℚ))
    (fc tc : String) (di : DateInput) (dr : Option ℚ) (v : Option ℚ)
    (hl : lookupCache cache ⟨fc, tc, di, dr⟩ = none)
    (hc : get_currency_rate_core svc fc tc di dr = .ok v) :
    get_currency_rate svc cache fc tc di dr = ⟨.ok v, (⟨fc, tc, di, dr⟩, v) :: cache, 1⟩ := by
  unfold get_currency_rate
  rw [hl, hc]

/-- Equation lemma: a cache miss whose body raises stores nothing and
issues one fetch. -/
theorem get_currency_rate_miss_error (svc : RateService) (cache : List (CacheKey × Option ℚ))
    (fc tc : String) (di : DateInput) (dr : Option ℚ) (e : String)
    (hl : lookupCache cache ⟨fc, tc, di, dr⟩ = none)
    (hc : get_currency_rate_core svc fc tc di dr = .error e) :
    get_currency_rate svc cache fc tc di dr = ⟨.error e, cache, 1⟩ := by
  unfold get_currency_rate
  rw [hl, hc]

/-- A service whose responses are 200 OK but whose payload carries no rate
for any pair. -/
def svcNoRate : RateService := ⟨fun _ _ => ⟨200, fun _ _ => none⟩⟩

/-- A service answering 201 Created (a 2xx success) with a payload that
carries the rate 2 for usd/eur. -/
def svc201 : RateService :=
  ⟨fun _ _ => ⟨201, fun fc tc => if fc = "usd" ∧ tc = "eur" then some 2 else none⟩⟩

/-- A service answering 400 Bad Request with a body that happens to carry
the value 3 for usd/eur. -/
def svc400 : RateService :=
  ⟨fun _ _ => ⟨400, fun fc tc => if fc = "usd" ∧ tc = "eur" then some 3 else none⟩⟩

/-- A service answering 200 OK with the rate 2 for usd/eur. -/
def svcUsdEur : RateService :=
  ⟨fun _ _ => ⟨200, fun fc tc => if fc = "usd" ∧ tc = "eur" then some 2 else none⟩⟩

/-! ## C3 -/

/-- C3: the spec says get_currency_rate treats a response as carrying a
rate exactly when its status is in the 2xx class. The source instead tests
status_code % 200 == 0: a 201 response whose payload holds the rate 2 is
sent down the no-rate path and yields the default rate, while a 400
response is read as rate-bearing and its payload value is returned. -/
theorem C3_status_class_check :
    get_currency_rate_core svc201 "usd" "eur" .latest (some 7) = .ok (some 7) ∧
    get_currency_rate_core svc400 "usd" "eur" .latest (some 7) = .ok (some 3) := by
  constructor <;> decide

/-! ## C4 -/

/-- C4: a direct resolver call with no rate available honours a supplied
default and, with none supplied, fails naming both currency codes; but the
batched pass of the dynamic strategy does not forward its default_rate, so
the same lookup through get_currency_rate_batches raises even though a
default of 2 was supplied. -/
theorem C4_default_rate_dropped_in_batches :
    get_currency_rate_core svcNoRate "xxx" "eur" .latest (some 2) = .ok (some 2) ∧
    get_currency_rate_core svcNoRate "xxx" "eur" .latest none = .error (unableMsg "xxx" "eur") ∧
    (get_currency_rate_batches svcNoRate [] ["xxx"] "eur" [.latest] (some 2)).1 =
      .error (unableMsg "xxx" "eur") := by
  refine ⟨by decide, by decide, by decide⟩

/-! ## C8 -/

/-- A latest-strategy Currency converting to eur with no default rate. -/
def curEurNoDefault : Currency := { currency_col := "cur", convert_to := "eur" }

/-- A service answering 200 OK whose payload carries the rate 3 exactly
for the self-pairs (a currency against itself). -/
def svcSelfRate : RateService :=
  ⟨fun _ _ => ⟨200, fun fc tc => if fc = tc then some 3 else none⟩⟩

/-- C8 counterexample: polars when/then/otherwise evaluates the then
branch over the whole column, so a row whose currency equals the target
still sends its currency through the resolver. With an empty memo cache
and a service holding no rate, the single same-currency row issues one
network fetch and the materialization raises instead of the row receiving
1.0 — refuting both halves of the claim at a concrete input. -/
theorem C8_counterexample_eager_then_branch :
    (curEurNoDefault.rateRow svcNoRate [] "eur" .latest).fetches = 1 ∧
    (curEurNoDefault.rateRow svcNoRate [] "eur" .latest).result =
      .error (unableMsg "eur" "eur") :=
  ⟨rfl, rfl⟩

/-- Equation lemma: with the latest strategy, a raised resolver call makes
the whole per-row rate expression raise. -/
theorem rateRow_latest_err (c : Currency) (svc : RateService)
    (cache : List (CacheKey × Option ℚ)) (currencyVal : String) (dateVal : DateInput)
    (hs : c.strategy = .latest) (e : String)
    (cache2 : List (CacheKey × Option ℚ)) (n : Nat)
    (hr : get_currency_rate svc cache currencyVal c.convert_to .latest c.default_rate =
      ⟨.error e, cache2, n⟩) :
    c.rateRow svc cache currencyVal dateVal = ⟨.error e, cache2, n⟩ := by
  unfold Currency.rateRow
  rw [hs, hr]

/-- Equation lemma: with the latest strategy, a returning resolver call
gives the row the masked value (the resolver's rate when the currencies
differ, 1.0 otherwise) and the resolver call's fetches. -/
theorem rateRow_latest_ok (c : Currency) (svc : RateService)
    (cache : List (CacheKey × Option ℚ)) (currencyVal : String) (dateVal : DateInput)
    (hs : c.strategy = .latest) (w : Option ℚ)
    (cache2 : List (CacheKey × Option ℚ)) (n : Nat)
    (hr : get_currency_rate svc cache currencyVal c.convert_to .latest c.default_rate =
      ⟨.ok w, cache2, n⟩) :
    c.rateRow svc cache currencyVal dateVal =
      ⟨.ok (if currencyVal ≠ c.convert_to then w else some 1), cache2, n⟩ := by
  unfold Currency.rateRow
  rw [hs, hr]

/-- C8 (amended): for a latest-strategy Currency, a row whose currency
equals the target receives exactly 1.0 whenever the rate expression
evaluates without raising; the resolver is still invoked with that row's
currency, so the row issues exactly the fetches of that resolver call (one
on a memo miss) rather than never fetching. -/
theorem C8_same_currency_row (c : Currency) (svc : RateService)
    (cache : List (CacheKey × Option ℚ)) (currencyVal : String) (dateVal : DateInput)
    (hs : c.strategy = .latest) (h : currencyVal = c.convert_to) :
    (∀ v, (c.rateRow svc cache currencyVal dateVal).result = .ok v → v = some 1) ∧
    (c.rateRow svc cache currencyVal dateVal).fetches =
      (get_currency_rate svc cache currencyVal c.convert_to .latest c.default_rate).fetches := by
  rcases hr : get_currency_rate svc cache currencyVal c.convert_to .latest c.default_rate
    with ⟨res, cache2, n⟩
  rcases res with e | w
  · rw [rateRow_latest_err c svc cache currencyVal dateVal hs e cache2 n hr]
    refine ⟨?_, by simp [hr]⟩
    intro v hv
    exact absurd hv (fun hh => Except.noConfusion hh)
  · rw [rateRow_latest_ok c svc cache currencyVal dateVal hs w cache2 n hr]
    refine ⟨?_, by simp [hr]⟩
    intro v hv
    rw [h] at hv
    simp at hv
    exact hv.symm

/-- Witness for C8 (amended) at a concrete Currency, service and row: the
resolver returns the rate 3 for eur/eur, yet the row receives 1.0, and its
fetch count equals that of the resolver call. -/
theorem C8_same_currency_row_witness :
    curEurNoDefault.strategy = .latest ∧ ("eur" : String) = curEurNoDefault.convert_to ∧
    ((∀ v, (curEurNoDefault.rateRow svcSelfRate [] "eur" .latest).result = .ok v →
        v = some 1) ∧
      (curEurNoDefault.rateRow svcSelfRate [] "eur" .latest).fetches =
        (get_currency_rate svcSelfRate [] "eur" curEurNoDefault.convert_to .latest
          curEurNoDefault.default_rate).fetches) :=
  ⟨rfl, rfl, C8_same_currency_row curEurNoDefault svcSelfRate [] "eur" .latest rfl rfl⟩

/-- In the successful path, a call leaves its own key bound to the returned
value in the cache it hands back. -/
theorem get_currency_rate_ok_cached (svc : RateService) (cache : List (CacheKey × Option ℚ))
    (fc tc : String) (di : DateInput) (dr : Option ℚ) (v : Option ℚ)
    (h : (get_currency_rate svc cache fc tc di dr).result = .ok v) :
    lookupCache (get_currency_rate svc cache fc tc di dr).cache ⟨fc, tc, di, dr⟩ = some v := by
  rcases hl : lookupCache cache ⟨fc, tc, di, dr⟩ with _ | w
  · rcases hc : get_currency_rate_core svc fc tc di dr with e | w2
    · rw [get_currency_rate_miss_error svc cache fc tc di dr e hl hc] at h
      exact absurd h (fun hh => Except.noConfusion hh)
    · rw [get_currency_rate_miss_ok svc cache fc tc di dr w2 hl hc] at h ⊢
      obtain rfl : w2 = v := Except.ok.inj h
      simp [lookupCache]
  · rw [get_currency_rate_hit svc cache fc tc di dr w hl] at h ⊢
    obtain rfl : w = v := Except.ok.inj h
    exact hl

/-! ## C9 -/

/-- C9 counterexample: two identical resolver calls are not always served
by at most one fetch. When the first call raises (no rate, no default),
functools.cache stores nothing, so the identical second call issues a
second request: the claim's at-most-one-fetch bound fails at this input. -/
theorem C9_counterexample_exception_refetch :
    ¬ ((get_currency_rate svcNoRate [] "xxx" "yyy" .latest none).fetches +
        (get_currency_rate svcNoRate
            (get_currency_rate svcNoRate [] "xxx" "yyy" .latest none).cache
            "xxx" "yyy" .latest none).fetches ≤ 1) := by
  decide

/-- C9 (amended): when the first of two calls with the identical argument
tuple returns a value (rather than raising), the second call returns that
identical value and the two calls issue at most one fetch in total. -/
theorem C9_memoized_idempotent (svc : RateService) (cache : List (CacheKey × Option ℚ))
    (fc tc : String) (di : DateInput) (dr : Option ℚ) (v : Option ℚ)
    (h : (get_currency_rate svc cache fc tc di dr).result = .ok v) :
    (get_currency_rate svc (get_currency_rate svc cache fc tc di dr).cache
        fc tc di dr).result = .ok v ∧
    (get_currency_rate svc cache fc tc di dr).fetches +
      (get_currency_rate svc (get_currency_rate svc cache fc tc di dr).cache
          fc tc di dr).fetches ≤ 1 := by
  have hcached := get_currency_rate_ok_cached svc cache fc tc di dr v h
  rw [get_currency_rate_hit svc (get_currency_rate svc cache fc tc di dr).cache
    fc tc di dr v hcached]
  refine ⟨rfl, ?_⟩
  rcases hl : lookupCache cache ⟨fc, tc, di, dr⟩ with _ | w
  · rcases hc : get_currency_rate_core svc fc tc di dr with e | w2
    · rw [get_currency_rate_miss_error svc cache fc tc di dr e hl hc] at h
      exact absurd h (fun hh => Except.noConfusion hh)
    · rw [get_currency_rate_miss_ok svc cache fc tc di dr w2 hl hc]
      simp
  · rw [get_currency_rate_hit svc cache fc tc di dr w hl]
    simp

/-- Witness for C9 (amended) at a concrete service, starting from the empty
cache. -/
theorem C9_memoized_idempotent_witness :
    (get_currency_rate svcUsdEur [] "usd" "eur" .latest none).result = .ok (some 2) ∧
    ((get_currency_rate svcUsdEur (get_currency_rate svcUsdEur [] "usd" "eur" .latest none).cache
        "usd" "eur" .latest none).result = .ok (some 2) ∧
      (get_currency_rate svcUsdEur [] "usd" "eur" .latest none).fetches +
        (get_currency_rate svcUsdEur
            (get_currency_rate svcUsdEur [] "usd" "eur" .latest none).cache
            "usd" "eur" .latest none).fetches ≤ 1) :=
  ⟨by decide, C9_memoized_idempotent svcUsdEur [] "usd" "eur" .latest none (some 2) (by decide)⟩

/-! ## C5 -/

/-- An Account whose amount column is absent from the resolved schema
(date and transaction columns are present). -/
def acct5 : Account :=
  { name := "A"
    date_col := "date"
    transaction_col := "description"
    amount_col := "amount"
    data := [[("date", .dt 0), ("description", .str "t")]]
    data_schema := [("date", .datetime_us), ("description", .string)] }

/-- C5: the required-column assert loop iterates over [date_col,
transaction_col, transaction_col], so the amount column is never among the
checked columns; for an account whose amount column is absent the loop
passes, and get_data instead fails later with the bare missing-key error
of the schema lookup, which is not the assert message naming the available
columns. -/
theorem C5_amount_column_never_checked :
    "amount" ∉ requiredColsChecked acct5 ∧
    acct5.checkRequiredColumns = .ok () ∧
    acct5.get_data svcNoRate = .error (schemaMissingMsg "amount") ∧
    schemaMissingMsg "amount" ≠ assertColMsg "amount" (schemaNames acct5.data_schema) := by
  refine ⟨by decide, rfl, rfl, by decide⟩

/-! ## C6 -/

/-- Spec-side comparison definition, following the spec's words: strip ALL
thousands-separator characters, then parse as a float. -/
def stripAllSeparators_spec (s : String) : String := ⟨s.data.filter (· != ',')⟩

/-- C6: the claimed coercion of a textual amount. The claim's own example
"1,234.56" does coerce to 1234.56, but the source removes only the first
comma (str.replace has n=1), so "1,234,567.89" is left as "1234,567.89"
and the strict Float64 cast fails, where stripping all separators as the
spec describes would give 1234567.89. -/
theorem C6_textual_amount_coercion :
    cleanAmountStr "1,234.56" = some (1234.56 : ℚ) ∧
    cleanAmountStr "1,234,567.89" = none ∧
    parseFloat64 (stripAllSeparators_spec "1,234,567.89") = some (1234567.89 : ℚ) := by
  refine ⟨?_, rfl, ?_⟩
  · have h : cleanAmountStr "1,234.56" =
        some ((1 : ℚ) * ((1234 : ℚ) + (56 : ℚ) / (10 : ℚ) ^ 2)) := rfl
    rw [h]
    norm_num
  · have h : parseFloat64 (stripAllSeparators_spec "1,234,567.89") =
        some ((1 : ℚ) * ((1234567 : ℚ) + (89 : ℚ) / (10 : ℚ) ^ 2)) := rfl
    rw [h]
    norm_num

/-! ## C7 -/

/-- A store that already contains a category named "imported". -/
def store7 : Store :=
  { accounts := []
    categories := [(1, "imported")]
    records := []
    nextAccountId := 1
    nextCategoryId := 2 }

/-- C7: create_cateogry on a store already holding the category inserts a
second row with the same name anyway (no existence check), while the
resolved identifier is that of the first, pre-existing row. -/
theorem C7_category_inserted_unconditionally :
    (create_cateogry "imported" store7).1 = .ok 1 ∧
    (create_cateogry "imported" store7).2.categories = [(1, "imported"), (2, "imported")] :=
  ⟨rfl, rfl⟩

/-! ## C1 -/

/-- One-row account fixture: a single Coffee transaction of 5.00. -/
def acct1 : Account :=
  { name := "acc"
    date_col := "date"
    transaction_col := "desc"
    amount_col := "amount"
    data := [[("date", .dt 0), ("desc", .str "Coffee"), ("amount", .num 5)]]
    data_schema := [("date", .datetime_us), ("desc", .string), ("amount", .float64)] }

/-- The same account with no rows at all. -/
def acctNoRows : Account :=
  { acct1 with data := [] }

/-- A store with no accounts, categories or records. -/
def emptyStore : Store := { accounts := [], categories := [], records := [] }

/-- C1: the final emptiness check of save_to_bagel is inverted. Against an
empty store with one incoming row, one row survives yet nothing is handed
to write_database; with no incoming rows, an empty write is issued. The
claim (write exactly when at least one row survives; all rows written
unconditionally against an empty store) describes the opposite, intended
behaviour. -/
theorem C1_write_condition_inverted :
    (save_to_bagel svcNoRate ⟨[acct1]⟩ emptyStore 0).map
        (fun r => (r.surviving.length, r.written)) = .ok (1, none) ∧
    (save_to_bagel svcNoRate ⟨[acctNoRows]⟩ emptyStore 0).map
        (fun r => (r.surviving, r.written)) = .ok ([], some []) :=
  ⟨rfl, rfl⟩

/-! ## C2 -/

/-- The stored Coffee record of the reconciliation scenario, as the record
table holds it (textual timestamps, 0/1 flags). -/
def coffeeRaw : RawRecord :=
  { createdAt := "2024-01-01 00:00:00"
    updatedAt := "2024-01-01 00:00:00"
    label := "Coffee"
    amount := 5
    date := "2024-01-01 00:00:00"
    accountId := 1
    categoryId := 1
    isIncome := 1
    isInProgress := 0
    isTransfer := 0 }

/-- A store holding the account "acc", the category "imported", and the
one existing Coffee record. -/
def storeCoffee : Store :=
  { accounts := [(1, "acc")]
    categories := [(1, "imported")]
    records := [coffeeRaw]
    nextAccountId := 2
    nextCategoryId := 2 }

/-- Incoming data of the scenario: the same Coffee triple plus a new Rent
transaction of 1200.00 dated 2024-01-02. -/
def acctCoffeeRent : Account :=
  { name := "acc"
    date_col := "date"
    transaction_col := "desc"
    amount_col := "amount"
    data :=
      [[("date", .dt (tsMicro 2024 1 1)), ("desc", .str "Coffee"), ("amount", .num 5)],
       [("date", .dt (tsMicro 2024 1 2)), ("desc", .str "Rent"), ("amount", .num 1200)]]
    data_schema := [("date", .datetime_us), ("desc", .string), ("amount", .float64)] }

/-- The store-shaped Rent record, the only row surviving the anti-join. -/
def rentRecord : StoreRecord :=
  { createdAt := 0
    updatedAt := 0
    label := "Rent"
    amount := some 1200
    date := some (tsMicro 2024 1 2)
    accountId := 1
    categoryId := 1
    isIncome := some true
    isInProgress := some false
    isTransfer := some false }

/-- C2: in the Coffee/Rent scenario the reconciling anti-join on (label,
amount, date) leaves exactly the Rent record — the incoming row whose
triple matches no existing record — but the inverted emptiness check then
skips the write, so the Rent record is not written as the claim states. -/
theorem C2_reconciliation_scenario :
    (save_to_bagel svcNoRate ⟨[acctCoffeeRent]⟩ storeCoffee 0).map
        (fun r => (r.surviving, r.written)) = .ok ([rentRecord], none) :=
  rfl

/-! ## C10 -/

/-- Helper for C10: the length of the concatenated member outputs is the
sum of the members' row counts. -/
theorem collectData_length (svc : RateService) :
    ∀ (accounts : List Account) (rows : List Row),
      collectData svc accounts = .ok rows →
      rows.length = (accounts.map fun a => accountRowCount a svc).sum := by
  intro accounts
  induction accounts with
  | nil =>
    intro rows h
    simp only [collectData] at h
    cases h
    rfl
  | cons a as ih =>
    intro rows h
    simp only [collectData] at h
    cases hfa : a.get_data svc with
    | error e => rw [hfa] at h; exact absurd h (fun hh => Except.noConfusion hh)
    | ok b =>
      rw [hfa] at h
      cases hmas : collectData svc as with
      | error e => rw [hmas] at h; exact absurd h (fun hh => Except.noConfusion hh)
      | ok bs =>
        rw [hmas] at h
        cases h
        simp only [List.length_append, List.map_cons, List.sum_cons, accountRowCount, hfa,
          ih bs hmas]

/-- C10: the row count of AccountCollection.get_data equals the sum of the
member accounts' get_data row counts — the concatenation performs no
cross-account deduplication. -/
theorem C10_collection_row_count (accounts : List Account) (svc : RateService)
    (rows : List Row)
    (h : AccountCollection.get_data ⟨accounts⟩ svc = .ok rows) :
    rows.length = (accounts.map fun a => accountRowCount a svc).sum :=
  collectData_length svc accounts rows h

/-- Two-row account fixture for the C10 witness. -/
def acctTwoRows : Account :=
  { name := "acc2"
    date_col := "date"
    transaction_col := "desc"
    amount_col := "amount"
    data :=
      [[("date", .dt 0), ("desc", .str "A"), ("amount", .num 1)],
       [("date", .dt 1), ("desc", .str "B"), ("amount", .num 2)]]
    data_schema := [("date", .datetime_us), ("desc", .string), ("amount", .float64)] }

/-- The concatenated output of the two witness accounts. -/
def rowsW : List Row :=
  [⟨"acc", some 0, some "Coffee", some 5⟩,
   ⟨"acc2", some 0, some "A", some 1⟩,
   ⟨"acc2", some 1, some "B", some 2⟩]

/-- Witness for C10 at a concrete two-account collection (1 + 2 rows). -/
theorem C10_collection_row_count_witness :
    AccountCollection.get_data ⟨[acct1, acctTwoRows]⟩ svcNoRate = .ok rowsW ∧
    rowsW.length = ([acct1, acctTwoRows].map fun a => accountRowCount a svcNoRate).sum :=
  ⟨rfl, C10_collection_row_count [acct1, acctTwoRows] svcNoRate rowsW rfl⟩

end Finwrap
